import Mathlib

/-!
# Verification of the NAS file scanner (`nas_track.py`)

Shallow embedding of the core of the scanner: the SQLite-backed store
(`DB`), the per-file processing (`process_file`), the resume rule, the
visited-inode tracker (`mark_visited`), the directory scan loop
(`_dir_scan_loop`) and the duplicate query (`find_duplicates`).

External effects (the filesystem, `hashlib`, `mimetypes.guess_type`,
`fnmatch.fnmatch`, SQLite-level failures) are modelled as oracles carried
in an environment `Env` / filesystem `FS`; the scanner logic itself is
translated directly from the Python source.  Machine-level concurrency
collapses to a sequential interleaving: the Python code guards the visited
set with a lock and the store with a lock, so every step we model
(`mark_visited`, one upsert, one lookup) is a single atomic step, and the
sequential loop is a faithful interleaving model of the thread pool.
-/

/-- Physical identity of a filesystem object: the `(st_dev, st_ino)` pair. -/
abbrev Ident := Nat × Nat

/-- Result of `os.stat` for one path: the fields `nas_track.py` reads. -/
structure Stat where
  isDir : Bool
  isFile : Bool
  size : Int
  mtime : Int
  atime : Int
  ctime : Int
  mode : Int
  uid : Int
  gid : Int
  dev : Nat
  ino : Nat
deriving Repr, DecidableEq

/-- One `os.scandir` entry: its full path and its basename. -/
structure Entry where
  path : String
  name : String
deriving Repr, DecidableEq

/-- One row of the `files` table (SQLite schema at the top of the source).
`sha256` and `mime` are nullable columns, so they are `Option`s. -/
structure FileRow where
  path : String
  size : Int
  mtime : Int
  atime : Int
  ctime : Int
  mode : Int
  uid : Int
  gid : Int
  dev : Nat
  ino : Nat
  sha256 : Option String
  mime : Option String
  scanned_at : Int
deriving Repr, DecidableEq

/-- The SQLite store: the rows of the `files` table plus whether the
connection has been closed (`DB.close`).  Operations on a closed
connection raise `sqlite3.ProgrammingError`. -/
structure DB where
  rows : List FileRow
  closed : Bool
deriving Repr, DecidableEq

/-- External-world oracles: the results of `sha256_file`, of
`mimetypes.guess_type` (first component), of `fnmatch.fnmatch name pattern`,
and whether the SQLite layer raises on the upsert for a given path. -/
structure Env where
  sha : String → Option String
  guess : String → Option String
  fnm : String → String → Bool
  upsertFault : String → Bool

/-- Scanner configuration: the `NASScanner.__init__` parameters that the
scan loop reads, plus the run timestamp `self.scanned_at`. -/
structure Cfg where
  compute_hash : Bool
  pattern : Option String
  min_size : Int
  max_size : Option Int
  resume : Bool
  scanned_at : Int

/-- `self.threads = max(1, threads)` in `NASScanner.__init__`. -/
def init_threads (t : Int) : Int := max 1 t

/-- Number of worker loops `scan` submits: `for _ in range(self.threads)`. -/
def worker_count (t : Int) : Nat := (init_threads t).toNat

/-- `guess_mime`: `m, _ = mimetypes.guess_type(path); return m or
"application/octet-stream"`.  Python `or` falls through on `None` and on
the empty string. -/
def guess_mime (g : Option String) : String :=
  match g with
  | some m => if m = "" then "application/octet-stream" else m
  | none => "application/octet-stream"

/-- `should_skip_by_name`: skip iff a pattern is configured and
`fnmatch.fnmatch(name, pattern)` fails. -/
def should_skip_by_name (cfg : Cfg) (env : Env) (name : String) : Bool :=
  match cfg.pattern with
  | none => false
  | some pat => ! env.fnm name pat

/-- `mark_visited`: under `self.visited_lock`, test membership of
`(st_dev, st_ino)` in `self.visited_inodes` and insert when absent; the
whole check-and-insert is one atomic step.  Returns `true` exactly on
first sight. -/
def mark_visited (v : List Ident) (k : Ident) : Bool × List Ident :=
  if k ∈ v then (false, v) else (true, v ++ [k])

/-- `SELECT ... FROM files WHERE path=?` point lookup (path is UNIQUE). -/
def DB.lookup (db : DB) (p : String) : Option FileRow :=
  db.rows.find? (fun r => r.path = p)

/-- Row-list effect of the `INSERT ... ON CONFLICT(path) DO UPDATE SET` :
every column of the conflicting row is set to the excluded values, which
replaces the row; otherwise the row is appended. -/
def DB.upsertRows (rows : List FileRow) (m : FileRow) : List FileRow :=
  if rows.any (fun r => r.path = m.path) then
    rows.map (fun r => if r.path = m.path then m else r)
  else rows ++ [m]

/-- `DB.upsert_file`: raises (models any `sqlite3` exception, including
operating on a closed connection) or commits the upsert. -/
def DB.upsert_file (db : DB) (fault : Bool) (m : FileRow) : Except Unit DB :=
  if db.closed || fault then Except.error ()
  else Except.ok { db with rows := DB.upsertRows db.rows m }

/-- `DB.close`: closes the SQLite connection. -/
def DB.close_conn (db : DB) : DB := { db with closed := true }

/-- Observable side effects of processing one file, in order. -/
inductive Event where
  | hashComputed (path : String)
  | upsertDone (path : String)
  | upsertWarning (path : String)
deriving Repr, DecidableEq

/-- The metadata dict `process_file` builds from the captured `os.stat`. -/
def mk_meta (cfg : Cfg) (env : Env) (path : String) (st : Stat) : FileRow :=
  { path := path
    size := st.size
    mtime := st.mtime
    atime := st.atime
    ctime := st.ctime
    mode := st.mode
    uid := st.uid
    gid := st.gid
    dev := st.dev
    ino := st.ino
    sha256 := if cfg.compute_hash then env.sha path else none
    mime := some (guess_mime (env.guess path))
    scanned_at := cfg.scanned_at }

/-- The size filter of `process_file`:
`size < self.min_size or (self.max_size is not None and size > self.max_size)`. -/
def size_rejected (cfg : Cfg) (size : Int) : Bool :=
  decide (size < cfg.min_size) ||
    (match cfg.max_size with
     | some mx => decide (mx < size)
     | none => false)

/-- `NASScanner.process_file`: size filter, optional hash, build the meta
dict, try the upsert (a failure is logged as a warning and swallowed), and
return the meta dict. Returns `none` only when the size filter rejects. -/
def process_file (cfg : Cfg) (env : Env) (db : DB) (path : String) (st : Stat) :
    Option FileRow × DB × List Event :=
  if size_rejected cfg st.size then
    (none, db, [])
  else
    let hev : List Event := if cfg.compute_hash then [Event.hashComputed path] else []
    let meta := mk_meta cfg env path st
    match DB.upsert_file db (env.upsertFault path) meta with
    | Except.ok db2 => (some meta, db2, hev ++ [Event.upsertDone path])
    | Except.error _ => (some meta, db, hev ++ [Event.upsertWarning path])

/-- The resume fast-path test in `_dir_scan_loop`:
`SELECT size,mtime FROM files WHERE path=?` and skip iff a row exists with
exactly the observed size and mtime. -/
def resume_hit (cfg : Cfg) (db : DB) (path : String) (st : Stat) : Bool :=
  cfg.resume &&
    match DB.lookup db path with
    | some row => decide (row.size = st.size) && decide (row.mtime = st.mtime)
    | none => false

/-- The file branch of `_dir_scan_loop` (lines 344-357): name filter, then
resume fast skip, then `process_file`. -/
def handle_file (cfg : Cfg) (env : Env) (db : DB) (e : Entry) (st : Stat) :
    Option FileRow × DB × List Event :=
  if should_skip_by_name cfg env e.name then (none, db, [])
  else if resume_hit cfg db e.path st then (none, db, [])
  else process_file cfg env db e.path st

/-- The filesystem as seen through `safe_stat` and `os.scandir`:
`stat p = none` models a raised-and-swallowed stat failure, and
`listDir p = none` models a listing failure (permission denied, vanished
directory, OSError), which the loop catches and logs. -/
structure FS where
  stat : String → Option Stat
  listDir : String → Option (List Entry)

/-- The mutable state a `_dir_scan_loop` worker reads and writes:
`visited` is `self.visited_inodes`, `queue` is `self.dir_queue`,
`pushes` is the trace of identities whose path was pushed onto the queue,
`db` the store, `processed` the worker-local processed-file counter, and
`events` the trace of file-processing effects. -/
structure ScanState where
  visited : List Ident
  queue : List String
  pushes : List Ident
  db : DB
  processed : Nat
  events : List Event
deriving Repr, DecidableEq

/-- The per-entry body of `_dir_scan_loop` (lines 334-357): stat the
entry (skip on failure); a directory is enqueued iff `mark_visited`
returns true; a file goes through `handle_file`; anything else is
ignored. -/
def handle_entry (cfg : Cfg) (env : Env) (fs : FS) (st : ScanState) (e : Entry) :
    ScanState :=
  match fs.stat e.path with
  | none => st
  | some s =>
    if s.isDir then
      if (mark_visited st.visited (s.dev, s.ino)).1 then
        { st with visited := (mark_visited st.visited (s.dev, s.ino)).2
                  queue := st.queue ++ [e.path]
                  pushes := st.pushes ++ [(s.dev, s.ino)] }
      else { st with visited := (mark_visited st.visited (s.dev, s.ino)).2 }
    else if s.isFile then
      { st with db := (handle_file cfg env st.db e s).2.1
                processed := st.processed +
                  (if (handle_file cfg env st.db e s).1.isSome then 1 else 0)
                events := st.events ++ (handle_file cfg env st.db e s).2.2 }
    else st

/-- Scanning one claimed directory: `os.scandir(dirpath)` and the entry
loop; a listing failure is caught, leaving the state unchanged. -/
def scan_dir (cfg : Cfg) (env : Env) (fs : FS) (st : ScanState) (d : String) :
    ScanState :=
  match fs.listDir d with
  | none => st
  | some entries => entries.foldl (handle_entry cfg env fs) st

/-- `_dir_scan_loop`, fuel-bounded: claim the next queued directory and
scan it until the queue is observed empty (the 1-second timeout drain). -/
def dir_scan_loop (cfg : Cfg) (env : Env) (fs : FS) : Nat → ScanState → ScanState
  | 0, st => st
  | Nat.succ fuel, st =>
    match st.queue with
    | [] => st
    | d :: rest =>
      dir_scan_loop cfg env fs fuel (scan_dir cfg env fs { st with queue := rest } d)

/-- The start of `scan`: stat the root (raise `FileNotFoundError` when it
fails, modelled as `none`), `mark_visited(root_stat)`, seed the queue with
the root. -/
def scan_init (fs : FS) (db0 : DB) (root : String) : Option ScanState :=
  match fs.stat root with
  | none => none
  | some s =>
    some { visited := (mark_visited [] (s.dev, s.ino)).2
           queue := [root]
           pushes := [(s.dev, s.ino)]
           db := db0
           processed := 0
           events := [] }

/-- `NASScanner.scan`: seed, drain the queue, and in the `finally` block
close the store.  Returns the final state (db closed) on normal
completion, `none` when the root stat fails before the try block. -/
def scan_run (cfg : Cfg) (env : Env) (fs : FS) (fuel : Nat) (db0 : DB)
    (root : String) : Option ScanState :=
  match scan_init fs db0 root with
  | none => none
  | some st0 =>
    let stF := dir_scan_loop cfg env fs fuel st0
    some { stF with db := DB.close_conn stF.db }

/-- All non-null `sha256` values of the table, with multiplicity
(`WHERE sha256 IS NOT NULL`). -/
def db_hashes (rows : List FileRow) : List String :=
  rows.filterMap (fun r => r.sha256)

/-- The rows bearing a given hash (`WHERE sha256=?`). -/
def rows_with_hash (rows : List FileRow) (s : String) : List FileRow :=
  rows.filter (fun r => r.sha256 = some s)

/-- Ordering used by `ORDER BY path`. -/
def pathLE (a b : FileRow) : Prop := a.path ≤ b.path

instance : DecidableRel pathLE := fun a b => inferInstanceAs (Decidable (a.path ≤ b.path))

instance : IsTotal FileRow pathLE := ⟨fun a b => le_total a.path b.path⟩

instance : IsTrans FileRow pathLE := ⟨fun _ _ _ h1 h2 => le_trans h1 h2⟩

/-- One duplicate group: `SELECT path,size,mtime FROM files WHERE sha256=?
ORDER BY path`. -/
def dup_group (rows : List FileRow) (s : String) : List (String × Int × Int) :=
  ((rows_with_hash rows s).insertionSort pathLE).map (fun r => (r.path, r.size, r.mtime))

/-- `DB.find_duplicates`: `SELECT sha256, COUNT(*) c FROM files WHERE
sha256 IS NOT NULL GROUP BY sha256 HAVING c > 1`, then one ordered member
query per reported hash. -/
def find_duplicates (rows : List FileRow) : List (String × List (String × Int × Int)) :=
  (((db_hashes rows).dedup).filter (fun s => 1 < (db_hashes rows).count s)).map
    (fun s => (s, dup_group rows s))

/-- Running `DB.find_duplicates` against a connection: on a closed
connection `cursor()/execute()` raises `sqlite3.ProgrammingError`. -/
def DB.find_duplicates_run (db : DB) :
    Except Unit (List (String × List (String × Int × Int))) :=
  if db.closed then Except.error ()
  else Except.ok (find_duplicates db.rows)

/-- The tail of `main` after `scanner.scan()` returned normally: the
`finally` block logs the elapsed time and then calls
`scanner.db.find_duplicates()` on the store of the scanner. -/
def main_duplicate_report (cfg : Cfg) (env : Env) (fs : FS) (fuel : Nat)
    (db0 : DB) (root : String) :
    Option (Except Unit (List (String × List (String × Int × Int)))) :=
  match scan_run cfg env fs fuel db0 root with
  | none => none
  | some stF => some (DB.find_duplicates_run stF.db)

/-- A sequence of `mark_visited` calls threaded through the visited set,
returning the list of results and the final set. -/
def mark_visited_run (v : List Ident) : List Ident → List Bool × List Ident
  | [] => ([], v)
  | k :: ks =>
    let r1 := mark_visited v k
    let r2 := mark_visited_run r1.2 ks
    (r1.1 :: r2.1, r2.2)

/-- Invariant tying the push trace to the visited set: no identity is
pushed twice, and every pushed identity has been recorded as visited. -/
def push_inv (st : ScanState) : Prop :=
  st.pushes.Nodup ∧ ∀ k ∈ st.pushes, k ∈ st.visited

/-! ### Concrete scenario inputs -/

/-- A directory status with the given identity. -/
def stat_dir (d i : Nat) : Stat :=
  { isDir := true, isFile := false, size := 0, mtime := 0, atime := 0,
    ctime := 0, mode := 0, uid := 0, gid := 0, dev := d, ino := i }

/-- A benign environment: hashing succeeds, no MIME guess, every name
matches, no store fault. -/
def env0 : Env :=
  { sha := fun _ => some "h0"
    guess := fun _ => none
    fnm := fun _ _ => true
    upsertFault := fun _ => false }

/-- A fresh, open store. -/
def db_empty : DB := { rows := [], closed := false }

/-- Default configuration: resume on, hashing off, no filters. -/
def cfg0 : Cfg :=
  { compute_hash := false, pattern := none, min_size := 0, max_size := none,
    resume := true, scanned_at := 0 }

/-- A root directory with no entries. -/
def fs_empty_root : FS :=
  { stat := fun p => if p = "/r" then some (stat_dir 1 1) else none
    listDir := fun p => if p = "/r" then some [] else none }

/-- A directory graph with a symlink cycle: `/r` contains `a`, and `/r/a`
contains `loop`, a symlink resolving back to the physical directory of
`/r` (same device and inode). -/
def fs_cycle : FS :=
  { stat := fun p =>
      if p = "/r" then some (stat_dir 1 1)
      else if p = "/r/a" then some (stat_dir 1 2)
      else if p = "/r/a/loop" then some (stat_dir 1 1)
      else none
    listDir := fun p =>
      if p = "/r" then some [{ path := "/r/a", name := "a" }]
      else if p = "/r/a" then some [{ path := "/r/a/loop", name := "loop" }]
      else none }

/-- The final state of scanning the cyclic graph. -/
def cycle_final : ScanState :=
  (scan_run cfg0 env0 fs_cycle 10 db_empty "/r").getD
    { visited := [], queue := [], pushes := [], db := db_empty,
      processed := 0, events := [] }

/-- A stored row for `/r/f` that predates hashing being enabled: it has
no content hash.  Recorded size 10 and mtime 5. -/
def row_c1 : FileRow :=
  { path := "/r/f", size := 10, mtime := 5, atime := 0, ctime := 0,
    mode := 0, uid := 0, gid := 0, dev := 1, ino := 3, sha256 := none,
    mime := some "application/octet-stream", scanned_at := 100 }

/-- A store holding only `row_c1`. -/
def db_c1 : DB := { rows := [row_c1], closed := false }

/-- The freshly observed status of `/r/f`: size 10 and mtime 5, exactly
matching the stored row. -/
def st_c1 : Stat :=
  { isDir := false, isFile := true, size := 10, mtime := 5, atime := 0,
    ctime := 0, mode := 0, uid := 0, gid := 0, dev := 1, ino := 3 }

/-- A run with resume on and hashing now enabled, run timestamp 200. -/
def cfg_c1 : Cfg :=
  { compute_hash := true, pattern := none, min_size := 0, max_size := none,
    resume := true, scanned_at := 200 }

/-- The scandir entry for `/r/f`. -/
def ent_c1 : Entry := { path := "/r/f", name := "f" }

/-- The call sequence used to exercise the `mark_visited` contract. -/
def ks_c5 : List Ident := [(1, 1), (2, 2), (1, 1)]

/-! ### Helper lemmas -/

/-- `mark_visited` returns true exactly on a pair not yet visited. -/
theorem mark_visited_fst (v : List Ident) (k : Ident) :
    (mark_visited v k).1 = true ↔ k ∉ v := by
  unfold mark_visited
  by_cases h : k ∈ v <;> simp [h]

/-- The visited set after `mark_visited` holds exactly the old members
plus the queried pair. -/
theorem mem_mark_visited (v : List Ident) (k x : Ident) :
    x ∈ (mark_visited v k).2 ↔ x ∈ v ∨ x = k := by
  unfold mark_visited
  by_cases h : k ∈ v
  · simp only [h, if_true]
    constructor
    · exact Or.inl
    · intro hx
      exact hx.elim id (fun he => he ▸ h)
  · simp [h]

/-- A successful upsert makes the new row the one found at its path. -/
theorem find?_upsertRows (m : FileRow) : ∀ rows : List FileRow,
    (DB.upsertRows rows m).find? (fun r => r.path = m.path) = some m := by
  intro rows
  unfold DB.upsertRows
  by_cases hany : rows.any (fun r => decide (r.path = m.path)) = true
  · simp only [hany, if_true]
    induction rows with
    | nil => simp at hany
    | cons r rows ih =>
      by_cases hr : r.path = m.path
      · simp [List.find?, hr]
      · simp only [List.any_cons, Bool.or_eq_true, decide_eq_true_eq] at hany
        have hany2 : rows.any (fun r => decide (r.path = m.path)) = true := by
          rcases hany with h | h
          · exact absurd h hr
          · simpa using h
        simp [List.find?, hr, ih hany2]
  · simp only [hany, if_false]
    have hall : ∀ r ∈ rows, ¬ (r.path = m.path) := by
      intro r hrme hr
      exact hany (List.any_eq_true.mpr ⟨r, hrme, by simpa using hr⟩)
    clear hany
    induction rows with
    | nil => simp [List.find?]
    | cons r rows ih =>
      have hr : ¬ (r.path = m.path) := hall r (by simp)
      simp only [List.cons_append, List.find?]
      rw [show (decide (r.path = m.path)) = false by simpa using hr]
      exact ih (fun q hq => hall q (by simp [hq]))

/-- Multiplicity of a hash among the non-null hashes equals the number of
rows bearing it. -/
theorem count_db_hashes (s : String) : ∀ rows : List FileRow,
    (db_hashes rows).count s = (rows_with_hash rows s).length := by
  intro rows
  induction rows with
  | nil => rfl
  | cons r rows ih =>
    unfold db_hashes rows_with_hash at ih ⊢
    cases hr : r.sha256 with
    | none => simp [List.filterMap_cons, hr, List.filter_cons, ih]
    | some t =>
      by_cases ht : t = s
      · subst ht
        simp [List.filterMap_cons, hr, List.filter_cons, List.count_cons, ih]
      · simp [List.filterMap_cons, hr, List.filter_cons, List.count_cons, ih,
          ht, Ne.symm ht]

/-! ### Claim theorems -/

/-- **C10**: for every integer worker-count argument, including zero and
negative values, `__init__` clamps `self.threads` to `max(1, threads)`,
so `scan` submits at least one worker loop
(`for _ in range(self.threads)`). -/
theorem thread_count_clamped : ∀ t : Int, 1 ≤ init_threads t ∧ 1 ≤ worker_count t := by
  intro t
  refine ⟨le_max_left 1 t, ?_⟩
  have h := le_max_left (1 : Int) t
  unfold worker_count init_threads at *
  omega

/-- **C9**: every row `process_file` returns carries
`mime = guess_mime(path)`, and `guess_mime` never returns an empty
string, falling back to `application/octet-stream` when no MIME type can
be guessed; hence every persisted record has a non-null mime field. -/
theorem mime_always_present (cfg : Cfg) (env : Env) (db : DB) (p : String)
    (st : Stat) (g : Option String) (m : FileRow)
    (hm : (process_file cfg env db p st).1 = some m) :
    m.mime = some (guess_mime (env.guess p)) ∧ guess_mime g ≠ "" ∧
    (g = none → guess_mime g = "application/octet-stream") := by
  refine ⟨?_, ?_, ?_⟩
  · unfold process_file at hm
    by_cases hs : size_rejected cfg st.size = true
    · simp [hs] at hm
    · simp only [hs, Bool.false_eq_true, if_false] at hm
      rcases hup : DB.upsert_file db (env.upsertFault p) (mk_meta cfg env p st) with u | db2 <;>
        simp [hup] at hm <;> rw [← hm] <;> rfl
  · unfold guess_mime
    cases g with
    | none => simp
    | some s =>
      by_cases hs : s = "" <;> simp [hs]
  · intro hg
    subst hg
    rfl

/-- **C2**: after `scan()` returns normally its `finally` block has
closed the SQLite connection, so the `DB.find_duplicates()` call that
`main()` then makes raises (`sqlite3.ProgrammingError`) instead of
succeeding: the duplicate summary of a normally-completed scan is never
printed. -/
theorem duplicate_report_after_scan_raises (cfg : Cfg) (env : Env) (fs : FS)
    (fuel : Nat) (db0 : DB) (root : String) :
    main_duplicate_report cfg env fs fuel db0 root = none ∨
    main_duplicate_report cfg env fs fuel db0 root = some (Except.error ()) := by
  unfold main_duplicate_report scan_run scan_init
  cases hs : fs.stat root with
  | none => left; rfl
  | some s =>
    right
    simp [DB.find_duplicates_run, DB.close_conn]

/-- Length of the result list of a call sequence. -/
theorem mark_visited_run_length (ks : List Ident) :
    ∀ v, (mark_visited_run v ks).1.length = ks.length := by
  induction ks with
  | nil => intro v; rfl
  | cons k ks ih =>
    intro v
    simp [mark_visited_run, ih]

/-- The final visited set of a call sequence holds the initial members
and every queried pair. -/
theorem mem_mark_visited_run (ks : List Ident) :
    ∀ v x, x ∈ (mark_visited_run v ks).2 ↔ x ∈ v ∨ x ∈ ks := by
  induction ks with
  | nil => simp [mark_visited_run]
  | cons k ks ih =>
    intro v x
    simp only [mark_visited_run, ih, mem_mark_visited, List.mem_cons]
    tauto

/-- Result of the i-th call of a sequence, for an arbitrary starting
visited set: true iff the pair is neither initially visited nor queried
earlier in the sequence. -/
theorem mark_visited_run_getD (ks : List Ident) :
    ∀ v (i : Nat), i < ks.length →
      ((mark_visited_run v ks).1.getD i false = true ↔
        (ks.getD i (0, 0) ∉ v ∧ ks.getD i (0, 0) ∉ ks.take i)) := by
  induction ks with
  | nil =>
    intro v i h
    simp at h
  | cons k ks ih =>
    intro v i h
    cases i with
    | zero =>
      simp only [mark_visited_run, List.getD_cons_zero, List.take_zero,
        List.not_mem_nil, not_false_iff, and_true]
      exact mark_visited_fst v k
    | succ i =>
      have h2 : i < ks.length := by simpa using h
      simp only [mark_visited_run, List.getD_cons_succ, List.take_succ_cons,
        List.mem_cons, not_or]
      rw [ih _ i h2]
      simp only [mem_mark_visited]
      tauto

/-- **C5**: starting from the empty visited set of a run, the i-th
`mark_visited` call returns true iff its (device, inode) pair was not
queried by any earlier call (so: true on first sight, false on every
subsequent call), and the queried pair is recorded in the visited set.
The check-and-insert is one atomic step of the model, mirroring the
`visited_lock` critical section. -/
theorem mark_visited_contract (ks : List Ident) (i : Nat) (h : i < ks.length) :
    ((mark_visited_run [] ks).1.getD i false = true ↔
      ks.getD i (0, 0) ∉ ks.take i) ∧
    ks.getD i (0, 0) ∈ (mark_visited_run [] ks).2 := by
  constructor
  · rw [mark_visited_run_getD ks [] i h]
    simp
  · rw [mem_mark_visited_run]
    right
    rw [List.getD_eq_getElem _ _ h]
    exact List.getElem_mem h

/-- **C5** witness: on the call sequence (1,1), (2,2), (1,1) the third
call returns false, the pair having been seen by the first call. -/
theorem mark_visited_contract_witness :
    (((mark_visited_run [] ks_c5).1.getD 2 false = true) ↔
      ks_c5.getD 2 (0, 0) ∉ ks_c5.take 2) ∧
    ks_c5.getD 2 (0, 0) ∈ (mark_visited_run [] ks_c5).2 :=
  mark_visited_contract ks_c5 2 (by decide)

/-- One entry step preserves the push invariant: a directory path is
pushed only when `mark_visited` returns true, i.e. only for an identity
not yet in the visited set, and the identity enters the set in the same
atomic step. -/
theorem handle_entry_push_inv (cfg : Cfg) (env : Env) (fs : FS)
    (st : ScanState) (e : Entry) (h : push_inv st) :
    push_inv (handle_entry cfg env fs st e) := by
  obtain ⟨hnd, hsub⟩ := h
  cases hs : fs.stat e.path with
  | none =>
    simp only [handle_entry, hs]
    exact ⟨hnd, hsub⟩
  | some s =>
    cases hdir : s.isDir with
    | true =>
      by_cases hfresh : (mark_visited st.visited (s.dev, s.ino)).1 = true
      · have hk : (s.dev, s.ino) ∉ st.visited := (mark_visited_fst _ _).mp hfresh
        simp only [handle_entry, hs, hdir, if_true, hfresh]
        constructor
        · rw [List.nodup_append]
          refine ⟨hnd, List.nodup_singleton _, ?_⟩
          intro x hx hx1
          rw [List.mem_singleton] at hx1
          exact hk (hx1 ▸ hsub x hx)
        · intro x hx
          rw [List.mem_append, List.mem_singleton] at hx
          rw [mem_mark_visited]
          exact hx.imp (fun h1 => hsub x h1) id
      · have hfresh2 : (mark_visited st.visited (s.dev, s.ino)).1 = false := by
          simp at hfresh
          exact hfresh
        simp only [handle_entry, hs, hdir, if_true, hfresh2, Bool.false_eq_true,
          if_false]
        refine ⟨hnd, fun x hx => ?_⟩
        rw [mem_mark_visited]
        exact Or.inl (hsub x hx)
    | false =>
      cases hfile : s.isFile with
      | true =>
        simp only [handle_entry, hs, hdir, hfile, Bool.false_eq_true, if_false,
          if_true]
        exact ⟨hnd, hsub⟩
      | false =>
        simp only [handle_entry, hs, hdir, hfile, Bool.false_eq_true, if_false]
        exact ⟨hnd, hsub⟩

/-- Scanning one directory preserves the push invariant. -/
theorem scan_dir_push_inv (cfg : Cfg) (env : Env) (fs : FS) (d : String) :
    ∀ (st : ScanState), push_inv st → push_inv (scan_dir cfg env fs st d) := by
  intro st h
  unfold scan_dir
  cases fs.listDir d with
  | none => exact h
  | some entries =>
    induction entries generalizing st with
    | nil => exact h
    | cons e es ih =>
      exact ih _ (handle_entry_push_inv cfg env fs st e h)

/-- The whole drain loop preserves the push invariant. -/
theorem dir_scan_loop_push_inv (cfg : Cfg) (env : Env) (fs : FS) :
    ∀ (fuel : Nat) (st : ScanState), push_inv st →
      push_inv (dir_scan_loop cfg env fs fuel st) := by
  intro fuel
  induction fuel with
  | zero => intro st h; exact h
  | succ fuel ih =>
    intro st h
    unfold dir_scan_loop
    cases hq : st.queue with
    | nil => exact h
    | cons d rest =>
      exact ih _ (scan_dir_push_inv cfg env fs d _ ⟨h.1, h.2⟩)

/-- A duplicate-free list counts every element at most once. -/
theorem nodup_count_le_one : ∀ (l : List Ident), l.Nodup → ∀ k, l.count k ≤ 1 := by
  intro l
  induction l with
  | nil =>
    intro _ k
    simp
  | cons a l ih =>
    intro h k
    rw [List.nodup_cons] at h
    rw [List.count_cons]
    by_cases hk : k = a
    · subst hk
      have h0 : l.count k = 0 := by
        rw [List.count_eq_zero]
        exact h.1
      simp [h0]
    · have hb : ¬ (a = k) := fun he => hk he.symm
      simp [hb, ih h.2 k]

/-- **C4**: in a single run, for each physical identity (device, inode),
a path with that identity is pushed onto the work queue at most once —
the push trace of any completed scan, over any directory graph including
ones with symlink or hard-link cycles, counts every identity at most
once. -/
theorem dir_enqueued_at_most_once (cfg : Cfg) (env : Env) (fs : FS)
    (fuel : Nat) (db0 : DB) (root : String) (stF : ScanState)
    (h : scan_run cfg env fs fuel db0 root = some stF) (k : Ident) :
    stF.pushes.count k ≤ 1 := by
  unfold scan_run scan_init at h
  cases hs : fs.stat root with
  | none => rw [hs] at h; exact absurd h (by simp)
  | some s =>
    rw [hs] at h
    simp only [Option.some_inj] at h
    have hinv0 : push_inv { visited := (mark_visited [] (s.dev, s.ino)).2
                            queue := [root]
                            pushes := [(s.dev, s.ino)]
                            db := db0
                            processed := 0
                            events := [] } := by
      constructor
      · exact List.nodup_singleton _
      · intro x hx
        rw [List.mem_singleton] at hx
        rw [mem_mark_visited]
        exact Or.inr hx
    have hinvF := dir_scan_loop_push_inv cfg env fs fuel _ hinv0
    have hpushes : stF.pushes = (dir_scan_loop cfg env fs fuel
        { visited := (mark_visited [] (s.dev, s.ino)).2
          queue := [root]
          pushes := [(s.dev, s.ino)]
          db := db0
          processed := 0
          events := [] }).pushes := by
      rw [← h]
    rw [hpushes]
    exact nodup_count_le_one _ hinvF.1 k

/-- **C4** witness: scanning the cyclic graph `fs_cycle` (a symlink in
`/r/a` resolving back to the physical directory of `/r`) completes, and
the root identity (1,1), reachable twice, is pushed only once. -/
theorem dir_enqueued_at_most_once_witness :
    scan_run cfg0 env0 fs_cycle 10 db_empty "/r" = some cycle_final ∧
    cycle_final.pushes.count (1, 1) ≤ 1 :=
  ⟨by rfl, dir_enqueued_at_most_once cfg0 env0 fs_cycle 10 db_empty "/r"
    cycle_final (by rfl) (1, 1)⟩

/-- A row used in the duplicate-query scenario. -/
def row_c6 (p : String) (h : Option String) : FileRow :=
  { path := p, size := 1, mtime := 2, atime := 3, ctime := 4, mode := 5,
    uid := 6, gid := 7, dev := 1, ino := 9, sha256 := h,
    mime := some "application/octet-stream", scanned_at := 10 }

/-- Store contents for the duplicate-query scenario: two rows share hash
`h1` (listed out of path order), one row holds `h2` alone, one row has no
hash. -/
def rows_c6 : List FileRow :=
  [row_c6 "/b" (some "h1"), row_c6 "/a" (some "h1"),
   row_c6 "/c" (some "h2"), row_c6 "/d" none]

/-- **C6**: the keys of `DB.find_duplicates` are exactly the non-null
sha256 values borne by at least two rows (a hash held by exactly one row
yields no group), and each group is the (path, size, mtime) projection of
the rows bearing that hash, sorted ascending by path. -/
theorem find_duplicates_correct (rows : List FileRow) (s : String) :
    (s ∈ (find_duplicates rows).map Prod.fst ↔
      2 ≤ (rows_with_hash rows s).length) ∧
    ∀ g, (s, g) ∈ find_duplicates rows →
      g.Perm ((rows_with_hash rows s).map (fun r => (r.path, r.size, r.mtime))) ∧
      g.Pairwise (fun a b => a.1 ≤ b.1) := by
  constructor
  · simp only [find_duplicates, List.map_map, List.mem_map, Function.comp,
      List.mem_filter, List.mem_dedup, decide_eq_true_eq]
    constructor
    · rintro ⟨t, ⟨htm, htc⟩, rfl⟩
      rw [count_db_hashes] at htc
      omega
    · intro h2
      refine ⟨s, ⟨?_, ?_⟩, rfl⟩
      · have hpos : 0 < (db_hashes rows).count s := by
          rw [count_db_hashes]
          omega
        exact List.count_pos_iff.mp hpos
      · rw [count_db_hashes]
        omega
  · intro g hg
    unfold find_duplicates at hg
    rw [List.mem_map] at hg
    obtain ⟨t, ht, hts⟩ := hg
    obtain ⟨h1, h2⟩ := Prod.mk.injEq .. |>.mp hts
    subst h1
    subst h2
    constructor
    · exact (List.perm_insertionSort pathLE _).map _
    · unfold dup_group
      rw [List.pairwise_map]
      exact List.sorted_insertionSort pathLE (rows_with_hash rows t)

/-- **C6** witness: on `rows_c6`, `h1` (borne by two rows) is reported
as a duplicate group and its group is sorted by path. -/
theorem find_duplicates_correct_witness :
    ("h1" ∈ (find_duplicates rows_c6).map Prod.fst) ∧
    (dup_group rows_c6 "h1").Pairwise (fun a b => a.1 ≤ b.1) :=
  ⟨(find_duplicates_correct rows_c6 "h1").1.mpr (by decide),
   ((find_duplicates_correct rows_c6 "h1").2 (dup_group rows_c6 "h1")
     (by exact List.Mem.head _)).2⟩

/-- **C1** (amended): with resume on, a file whose stored size and mtime
exactly match the observed status is skipped entirely (no hash
computation, no upsert) — and this holds regardless of whether the stored
row has a hash, even when hashing is enabled; the skip test depends only
on size and mtime. Any size or mtime mismatch, or a missing row, forces
full re-processing: the hash-computation event fires iff hashing is
enabled, and the row is upserted. -/
theorem resume_rule (cfg : Cfg) (env : Env) (db : DB) (e : Entry) (st : Stat)
    (hres : cfg.resume = true)
    (hname : should_skip_by_name cfg env e.name = false)
    (hsize : size_rejected cfg st.size = false)
    (hfault : env.upsertFault e.path = false)
    (hopen : db.closed = false) :
    (resume_hit cfg db e.path st = true ↔
      ∃ row, DB.lookup db e.path = some row ∧ row.size = st.size ∧
        row.mtime = st.mtime) ∧
    (resume_hit cfg db e.path st = true →
      handle_file cfg env db e st = (none, db, [])) ∧
    (resume_hit cfg db e.path st = false →
      handle_file cfg env db e st =
        (some (mk_meta cfg env e.path st),
         { db with rows := DB.upsertRows db.rows (mk_meta cfg env e.path st) },
         (if cfg.compute_hash then [Event.hashComputed e.path] else []) ++
           [Event.upsertDone e.path])) := by
  refine ⟨?_, ?_, ?_⟩
  · unfold resume_hit
    rw [hres]
    cases hl : DB.lookup db e.path with
    | none => simp
    | some row => simp
  · intro hhit
    simp [handle_file, hname, hhit]
  · intro hhit
    simp only [handle_file, hname, Bool.false_eq_true, if_false, hhit]
    simp only [process_file, hsize, Bool.false_eq_true, if_false]
    simp only [DB.upsert_file, hopen, hfault, Bool.or_self, Bool.false_eq_true,
      if_false]

/-- **C1** counterexample to the claim as stated: hashing is enabled and
the stored row for `/r/f` lacks a content hash, yet because the stored
size and mtime match the observed status the scanner skips the file —
returning no record, leaving the store untouched and emitting no event
(in particular no hash computation and no upsert), where the claim
requires full re-processing. -/
theorem resume_rule_counterexample :
    cfg_c1.compute_hash = true ∧ cfg_c1.resume = true ∧
    DB.lookup db_c1 "/r/f" = some row_c1 ∧ row_c1.sha256 = none ∧
    row_c1.size = st_c1.size ∧ row_c1.mtime = st_c1.mtime ∧
    handle_file cfg_c1 env0 db_c1 ent_c1 st_c1 = (none, db_c1, []) := by
  decide

/-- **C1** witness: the amended rule applied at the concrete scenario:
the matching row makes the scanner skip. -/
theorem resume_rule_witness :
    resume_hit cfg_c1 db_c1 ent_c1.path st_c1 = true ∧
    handle_file cfg_c1 env0 db_c1 ent_c1 st_c1 = (none, db_c1, []) :=
  ⟨by decide,
   (resume_rule cfg_c1 env0 db_c1 ent_c1 st_c1 (by decide) (by decide)
     (by decide) (by decide) (by decide)).2.1 (by decide)⟩

/-- **C3** (amended): with resume on, re-scanning a path whose size and
mtime are unchanged leaves the stored row entirely untouched — the hash
is not recomputed and no field changes; in particular the scanned_at
timestamp keeps its old value rather than being updated. -/
theorem resume_unchanged_row_untouched (cfg : Cfg) (env : Env) (db : DB)
    (e : Entry) (st : Stat)
    (hname : should_skip_by_name cfg env e.name = false)
    (hhit : resume_hit cfg db e.path st = true) :
    handle_file cfg env db e st = (none, db, []) ∧
    DB.lookup (handle_file cfg env db e st).2.1 e.path = DB.lookup db e.path ∧
    (handle_file cfg env db e st).2.2 = [] := by
  have h1 : handle_file cfg env db e st = (none, db, []) := by
    simp [handle_file, hname, hhit]
  exact ⟨h1, by rw [h1], by rw [h1]⟩

/-- **C3** counterexample to the claim as stated: this run has timestamp
200 but after re-scanning the unchanged `/r/f` the stored row still
carries its old scanned_at 100 — the last-scanned timestamp is not
updated, because the resume path writes nothing at all. -/
theorem scanned_at_not_updated :
    resume_hit cfg_c1 db_c1 "/r/f" st_c1 = true ∧
    cfg_c1.scanned_at = 200 ∧
    DB.lookup (handle_file cfg_c1 env0 db_c1 ent_c1 st_c1).2.1 "/r/f" =
      some row_c1 ∧
    row_c1.scanned_at = 100 ∧
    row_c1.scanned_at ≠ cfg_c1.scanned_at := by
  decide

/-- **C3** witness: the amended frame property at the concrete
scenario. -/
theorem resume_unchanged_row_untouched_witness :
    handle_file cfg_c1 env0 db_c1 ent_c1 st_c1 = (none, db_c1, []) ∧
    DB.lookup (handle_file cfg_c1 env0 db_c1 ent_c1 st_c1).2.1 ent_c1.path =
      DB.lookup db_c1 ent_c1.path :=
  ⟨(resume_unchanged_row_untouched cfg_c1 env0 db_c1 ent_c1 st_c1 (by decide)
      (by decide)).1,
   (resume_unchanged_row_untouched cfg_c1 env0 db_c1 ent_c1 st_c1 (by decide)
      (by decide)).2.1⟩

/-- Configuration for the filter scenario: both size bounds set
(4 and 100), a glob pattern configured, resume off. -/
def cfg_c7 : Cfg :=
  { compute_hash := false, pattern := some "*.mp4", min_size := 4,
    max_size := some 100, resume := false, scanned_at := 0 }

/-- Environment in which every name fails the glob pattern. -/
def env_c7 : Env :=
  { sha := fun _ => none
    guess := fun _ => none
    fnm := fun _ _ => false
    upsertFault := fun _ => false }

/-- The scandir entry for the filter scenario. -/
def ent_c7 : Entry := { path := "/f", name := "f.txt" }

/-- An in-range file status (size 10). -/
def st_c7 : Stat :=
  { isDir := false, isFile := true, size := 10, mtime := 5, atime := 0,
    ctime := 0, mode := 0, uid := 0, gid := 0, dev := 1, ino := 4 }

/-- An out-of-range file status (size 2 < min_size 4). -/
def st_c7_small : Stat :=
  { isDir := false, isFile := true, size := 2, mtime := 5, atime := 0,
    ctime := 0, mode := 0, uid := 0, gid := 0, dev := 1, ino := 5 }

/-- **C7**: with both bounds set, a file of size S is recorded iff
`min_size <= S <= max_size` (bounds inclusive); out of range, nothing is
written and no record is returned.  A file whose name fails the glob
pattern is dropped before any processing: no row is produced. -/
theorem filters_correct (cfg : Cfg) (env : Env) (db : DB) (e : Entry)
    (st : Stat) (mx : Int)
    (hmax : cfg.max_size = some mx)
    (hfault : env.upsertFault e.path = false)
    (hopen : db.closed = false) :
    ((process_file cfg env db e.path st).1.isSome ↔
      cfg.min_size ≤ st.size ∧ st.size ≤ mx) ∧
    (¬ (cfg.min_size ≤ st.size ∧ st.size ≤ mx) →
      process_file cfg env db e.path st = (none, db, [])) ∧
    ((cfg.min_size ≤ st.size ∧ st.size ≤ mx) →
      DB.lookup (process_file cfg env db e.path st).2.1 e.path =
        some (mk_meta cfg env e.path st)) ∧
    (should_skip_by_name cfg env e.name = true →
      handle_file cfg env db e st = (none, db, [])) := by
  have hsr : size_rejected cfg st.size = false ↔
      (cfg.min_size ≤ st.size ∧ st.size ≤ mx) := by
    simp only [size_rejected, hmax, Bool.or_eq_false_iff, decide_eq_false_iff_not,
      not_lt]
  refine ⟨?_, ?_, ?_, ?_⟩
  · by_cases hs : size_rejected cfg st.size = true
    · simp only [process_file, hs, if_true, Option.isSome_none,
        Bool.false_eq_true, false_iff]
      rw [← hsr]
      simp [hs]
    · have hs2 : size_rejected cfg st.size = false := by simpa using hs
      simp only [process_file, hs2, Bool.false_eq_true, if_false]
      rw [← hsr] at *
      cases hup : DB.upsert_file db (env.upsertFault e.path)
          (mk_meta cfg env e.path st) with
      | ok db2 => simp [hup, hs2]
      | error u => simp [hup, hs2]
  · intro hout
    rw [← hsr] at hout
    have hs : size_rejected cfg st.size = true := by
      cases h : size_rejected cfg st.size with
      | true => rfl
      | false => exact absurd h hout
    simp [process_file, hs]
  · intro hin
    rw [← hsr] at hin
    simp only [process_file, hin, Bool.false_eq_true, if_false]
    rw [show DB.upsert_file db (env.upsertFault e.path)
        (mk_meta cfg env e.path st) =
        Except.ok { db with
          rows := DB.upsertRows db.rows (mk_meta cfg env e.path st) } by
      simp [DB.upsert_file, hopen, hfault]]
    have hfind := find?_upsertRows (mk_meta cfg env e.path st) db.rows
    unfold DB.lookup
    simpa using hfind
  · intro hskip
    simp [handle_file, hskip]

/-- **C7** witness: size 2 is below the minimum 4 and produces nothing;
size 10 is within [4,100] and the record lands in the store under its
path; a name failing the glob produces no row. -/
theorem filters_correct_witness :
    process_file cfg_c7 env_c7 db_empty ent_c7.path st_c7_small =
      (none, db_empty, []) ∧
    DB.lookup (process_file cfg_c7 env_c7 db_empty ent_c7.path st_c7).2.1
      ent_c7.path = some (mk_meta cfg_c7 env_c7 ent_c7.path st_c7) ∧
    handle_file cfg_c7 env_c7 db_empty ent_c7 st_c7 = (none, db_empty, []) :=
  ⟨(filters_correct cfg_c7 env_c7 db_empty ent_c7 st_c7_small 100 (by decide)
      (by decide) (by decide)).2.1 (by decide),
   (filters_correct cfg_c7 env_c7 db_empty ent_c7 st_c7 100 (by decide)
      (by decide) (by decide)).2.2.1 (by decide),
   (filters_correct cfg_c7 env_c7 db_empty ent_c7 st_c7 100 (by decide)
      (by decide) (by decide)).2.2.2 (by decide)⟩

/-- Environment in which the store raises on every upsert. -/
def env_c8 : Env :=
  { sha := fun _ => none
    guess := fun _ => none
    fnm := fun _ _ => true
    upsertFault := fun _ => true }

/-- The scandir entry for the failing-upsert scenario. -/
def ent_c8 : Entry := { path := "/r/g", name := "g" }

/-- Status of `/r/g`: a plain 10-byte file. -/
def st_c8 : Stat :=
  { isDir := false, isFile := true, size := 10, mtime := 5, atime := 0,
    ctime := 0, mode := 0, uid := 0, gid := 0, dev := 1, ino := 6 }

/-- Filesystem exposing just the file `/r/g`. -/
def fs_c8 : FS :=
  { stat := fun p => if p = "/r/g" then some st_c8 else none
    listDir := fun _ => none }

/-- Worker state before handling `/r/g`: empty store, counter at 0. -/
def sst_c8 : ScanState :=
  { visited := [], queue := [], pushes := [], db := db_empty,
    processed := 0, events := [] }

/-- **C8**: when the upsert raises, `process_file` logs a warning (the
warning event), leaves the store unchanged, and still returns the
metadata dict — so the loop in `_dir_scan_loop` still increments its
processed-files counter, and the file counts toward the total reported
at the end of the scan. -/
theorem upsert_failure_still_counted (cfg : Cfg) (env : Env) (fs : FS)
    (st0 : ScanState) (e : Entry) (s : Stat)
    (hstat : fs.stat e.path = some s)
    (hdir : s.isDir = false) (hfile : s.isFile = true)
    (hname : should_skip_by_name cfg env e.name = false)
    (hhit : resume_hit cfg st0.db e.path s = false)
    (hsize : size_rejected cfg s.size = false)
    (hfault : env.upsertFault e.path = true) :
    (process_file cfg env st0.db e.path s).1 = some (mk_meta cfg env e.path s) ∧
    (process_file cfg env st0.db e.path s).2.1 = st0.db ∧
    Event.upsertWarning e.path ∈ (process_file cfg env st0.db e.path s).2.2 ∧
    (handle_entry cfg env fs st0 e).processed = st0.processed + 1 := by
  have hpf : process_file cfg env st0.db e.path s =
      (some (mk_meta cfg env e.path s), st0.db,
       (if cfg.compute_hash then [Event.hashComputed e.path] else []) ++
         [Event.upsertWarning e.path]) := by
    simp only [process_file, hsize, Bool.false_eq_true, if_false]
    simp [DB.upsert_file, hfault]
  refine ⟨by rw [hpf], by rw [hpf], by rw [hpf]; simp, ?_⟩
  simp only [handle_entry, hstat, hdir, Bool.false_eq_true, if_false, hfile,
    if_true]
  simp [handle_file, hname, hhit, hpf]

/-- **C8** witness: with the store raising on every upsert, handling
`/r/g` still returns its metadata and bumps the processed counter from
0 to 1. -/
theorem upsert_failure_still_counted_witness :
    (process_file cfg0 env_c8 sst_c8.db ent_c8.path st_c8).1 =
      some (mk_meta cfg0 env_c8 ent_c8.path st_c8) ∧
    (handle_entry cfg0 env_c8 fs_c8 sst_c8 ent_c8).processed =
      sst_c8.processed + 1 :=
  ⟨(upsert_failure_still_counted cfg0 env_c8 fs_c8 sst_c8 ent_c8 st_c8
      (by decide) (by decide) (by decide) (by decide) (by decide) (by decide)
      (by decide)).1,
   (upsert_failure_still_counted cfg0 env_c8 fs_c8 sst_c8 ent_c8 st_c8
      (by decide) (by decide) (by decide) (by decide) (by decide) (by decide)
      (by decide)).2.2.2⟩

/-- **C9** witness: at a concrete file, the returned record carries the
fallback MIME value, which is non-empty. -/
theorem mime_always_present_witness :
    (mk_meta cfg0 env0 "/p" st_c1).mime = some (guess_mime (env0.guess "/p")) ∧
    guess_mime none ≠ "" ∧
    guess_mime none = "application/octet-stream" :=
  ⟨(mime_always_present cfg0 env0 db_empty "/p" st_c1 none
      (mk_meta cfg0 env0 "/p" st_c1) (by decide)).1,
   (mime_always_present cfg0 env0 db_empty "/p" st_c1 none
      (mk_meta cfg0 env0 "/p" st_c1) (by decide)).2.1,
   (mime_always_present cfg0 env0 db_empty "/p" st_c1 none
      (mk_meta cfg0 env0 "/p" st_c1) (by decide)).2.2 rfl⟩
